import Mathlib

/-!
Verification of the Mantle bridge withdrawal monitor (Go sources under
`cross_chain/enhanced_parser.go` and the scheduler binary) against its
natural-language specification.

Modelling conventions:
* 32-byte words (`[32]byte`, `common.Hash`) are byte lists of length 32.
* `keccak256` is kept as an uninterpreted function parameter of type
  `List Nat → B32`; all claims depend only on which bytes are fed to it.
* Each Go function that performs external calls (RPC, contract reads,
  transaction sends) is modelled over an environment record that carries the
  result of each external call; the function body itself is translated
  statement by statement from the Go source.
* Go `(value, error)` returns are `Except String α`; a nil-pointer
  dereference is the `.panics` constructor of `GoResult`.
-/

set_option linter.unusedVariables false

deriving instance DecidableEq for Except

namespace MantleBridge

/-- Words of 32 bytes: Go `[32]byte` / `common.Hash`. -/
def B32 := { l : List Nat // l.length = 32 }

instance : DecidableEq B32 :=
  inferInstanceAs (DecidableEq { l : List Nat // l.length = 32 })

/-- The all-zero 32-byte word (`common.Hash{}` / `[32]byte{}`). -/
def zero32 : B32 := ⟨List.replicate 32 0, by simp⟩

/-- Go `common.BigToHash(big.NewInt n)` for `n < 2^256`: 32-byte big-endian
encoding of `n`. -/
def beBytes32 (n : Nat) : List Nat :=
  (List.range 32).map (fun i => n / 256 ^ (31 - i) % 256)

/-- Go `common.BigToHash` packaged as a `B32`. -/
def bigToHash (n : Nat) : B32 := ⟨beBytes32 n, by simp [beBytes32]⟩

/-- Go `calculateSentMessagesSlot` (enhanced_parser.go): storage slot of
`sentMessages[withdrawalHash]`, namely
`keccak256(withdrawalHash ++ BigToHash 0)` — the mapping sits at declared
slot 0.  The Go code parses the hash from a hex string with
`common.HexToHash`; we take the already-decoded 32-byte value. -/
def calculateSentMessagesSlot (keccak : List Nat → B32) (withdrawalHash : B32) : B32 :=
  keccak (withdrawalHash.val ++ (bigToHash 0).val)

/-- Go `TypesOutputRootProof` (generated ABI binding, used by
`ProveMessage`). -/
structure OutputRootProof where
  version : B32
  stateRoot : B32
  messagePasserStorageRoot : B32
  latestBlockhash : B32
deriving DecidableEq

/-- Go `calculateOutputRoot` (enhanced_parser.go): keccak256 of the in-order
concatenation of the four 32-byte fields of the output-root proof. -/
def calculateOutputRoot (keccak : List Nat → B32) (proof : OutputRootProof) : B32 :=
  keccak (proof.version.val ++ proof.stateRoot.val ++
    proof.messagePasserStorageRoot.val ++ proof.latestBlockhash.val)

/-- Go `L2ToL1MessagePasserMessagePassed` event (fields as used by the Go
code: Nonce, Sender, Target, GasLimit, Data, WithdrawalHash). -/
structure MessagePassed where
  nonce : Nat
  sender : String
  target : String
  gasLimit : Nat
  data : List Nat
  withdrawalHash : B32
deriving DecidableEq

/-- Go `L2CrossDomainMessengerSentMessage` event (fields as used by the Go
code). -/
structure SentMessage where
  target : String
  sender : String
  message : List Nat
  messageNonce : Nat
  gasLimit : Nat
deriving DecidableEq

/-- Go `L2CrossDomainMessengerSentMessageExtension1` event.  The two value
fields are `*big.Int` in Go and may be nil, hence `Option Nat`. -/
structure SentMessageExtension1 where
  sender : String
  mntValue : Option Nat
  ethValue : Option Nat
deriving DecidableEq

/-- The `Message` record built by `getMessages`. -/
structure Message where
  txHash : String := ""
  blockNumber : Nat := 0
  logIndex : Nat := 0
  direction : String := ""
  status : Nat := 0
  msgNonce : Nat := 0
  withdrawalHash : B32 := zero32
  mntValue : Nat := 0
  ethValue : Nat := 0
  sentMessageEvent : Option SentMessage := none
  sentMessageExtension1Event : Option SentMessageExtension1 := none
  messagePassedEvent : Option MessagePassed := none
deriving DecidableEq

/-- Go `TypesOutputProposal` returned by `getL2Output`. -/
structure OutputProposal where
  outputRoot : B32
  timestamp : Nat
  l2BlockNumber : Nat
deriving DecidableEq

/-- Go `TypesWithdrawalTransaction` passed to the portal. -/
structure WithdrawalTransaction where
  nonce : Nat
  sender : String
  target : String
  mntValue : Nat
  ethValue : Nat
  gasLimit : Nat
  data : List Nat
deriving DecidableEq

/-- The `WithdrawalProof` struct returned by
`generateWithdrawalProofForBlock`. -/
structure WithdrawalProofData where
  withdrawalProof : List (List Nat)
  messagePasserStorageRoot : B32
  latestBlockhash : B32
  stateRoot : B32
deriving DecidableEq

/-! ### Portal status reads: `checkProvenStatus`, `getMessageStatus` -/

/-- External-call results consumed by `getMessageStatus`:
`portal.finalizedWithdrawals` and `portal.provenWithdrawals` (the latter
returns the stored `(outputRoot, timestamp)`), plus the current Unix time
read by `getCurrentTimestamp`. -/
structure StatusEnv where
  finalizedRes : Except String Bool
  provenRes : Except String (B32 × Nat)
  now : Nat

/-- Go `checkProvenStatus` (enhanced_parser.go): reads
`provenWithdrawals(withdrawalHash)`; reports proven exactly when the
returned `outputRoot` is not the all-zero word (the Go code compares
`common.Bytes2Hex(result.OutputRoot)` against 64 zeros), and returns the
stored timestamp alongside. -/
def checkProvenStatus (env : StatusEnv) : Except String (Bool × Nat) :=
  match env.provenRes with
  | .error e => .error e
  | .ok (outputRoot, timestamp) =>
      .ok (if outputRoot = zero32 then false else true, timestamp)

/-- The condition under which `getMessageStatus` logs
"Message can be finalized now": `now ≥ timestamp + 43200 ∧ timestamp > 0`. -/
def canFinalizeLogCondition (now timestamp : Nat) : Bool :=
  decide (now ≥ timestamp + 43200 ∧ timestamp > 0)

/-- Go `getMessageStatus` (enhanced_parser.go).  A failing finalization read is
only logged and falls through to the proven check; a failing proven read
falls through to status 0.  The Go function always returns a nil error. -/
def getMessageStatus (env : StatusEnv) : Nat :=
  match env.finalizedRes with
  | .ok true => 2
  | _ =>
      match checkProvenStatus env with
      | .ok (isProven, _timestamp) => if isProven then 1 else 0
      | .error _ => 0

/-! ### `checkCanFinalize` -/

/-- External-call results consumed by `checkCanFinalize`:
`getL2OutputIndex` at the message's block and `getL2OutputData` at the
returned index, plus the current time. -/
structure CanFinalizeEnv where
  getL2OutputIndexRes : Except String Nat
  getL2OutputDataRes : Nat → Except String OutputProposal
  now : Nat

/-- Go `checkCanFinalize` (enhanced_parser.go).  Both oracle-read failures fall
back to the "heuristic" and return `(true, nil)`; otherwise the elapsed time
since the output's timestamp (Int64 arithmetic in Go) is compared against
the 12-hour challenge period.  The Go function never returns a non-nil
error. -/
def checkCanFinalize (env : CanFinalizeEnv) : Except String Bool :=
  match env.getL2OutputIndexRes with
  | .error _ => .ok true
  | .ok outputIndex =>
      match env.getL2OutputDataRes outputIndex with
      | .error _ => .ok true
      | .ok outputData =>
          .ok (decide ((env.now : Int) - (outputData.timestamp : Int) ≥ 43200))

/-! ### `generateWithdrawalProofForBlock` -/

/-- The L2 block header data used by the proof generator: `block.Root` and
`block.Hash()`. -/
structure BlockHeader where
  root : B32
  hash : B32
deriving DecidableEq

/-- One entry of the `eth_getProof` `storageProof` array.  The `proof` hex
strings are modelled after `common.FromHex` decoding, as byte lists. -/
structure StorageProofEntry where
  key : String
  value : String
  proof : List (List Nat)
deriving DecidableEq

/-- The `eth_getProof` response shape used by the Go code. -/
structure GetProofResult where
  accountProof : List String
  storageProof : List StorageProofEntry
  storageHash : B32
deriving DecidableEq

/-- External-call results consumed by `generateWithdrawalProofForBlock`:
the header fetch, the `eth_getProof` call, and the effect of
`helper.MaybeAddProofNode` (whose source file is not part of this
repository snapshot; it is kept uninterpreted, applied to the storage slot
and the raw proof list). -/
structure GenProofEnv where
  headerRes : Except String BlockHeader
  getProofRes : Except String GetProofResult
  maybeAddProofNodeRes : B32 → List (List Nat) → Except String (List (List Nat))

/-- Go `generateWithdrawalProofForBlock` (enhanced_parser.go).  Returns the
Go result together with a flag recording whether the
"Expected storage value 0x1 (true)" warning was printed.  A storage value
other than `0x1`/`0x01` only triggers that warning; the proof is still
assembled.  The only storage-proof hard error is an empty `storageProof`
array. -/
def generateWithdrawalProofForBlock (env : GenProofEnv) (keccak : List Nat → B32)
    (message : Message) : Except String WithdrawalProofData × Bool :=
  match env.headerRes with
  | .error e => (.error ("failed to get block header: " ++ e), false)
  | .ok block =>
      let slot := calculateSentMessagesSlot keccak message.withdrawalHash
      match env.getProofRes with
      | .error e => (.error ("failed to call eth_getProof: " ++ e), false)
      | .ok proofResult =>
          match proofResult.storageProof with
          | [] => (.error ("no storage proof returned for withdrawal hash"), false)
          | entry :: _ =>
              let warned : Bool := !(entry.value == "0x1" || entry.value == "0x01")
              let withdrawalProof := entry.proof
              match env.maybeAddProofNodeRes slot withdrawalProof with
              | .error e => (.error ("failed to apply MaybeAddProofNode: " ++ e), warned)
              | .ok finalProof =>
                  (.ok { withdrawalProof := finalProof
                         messagePasserStorageRoot := proofResult.storageHash
                         latestBlockhash := block.hash
                         stateRoot := block.root }, warned)

/-! ### `ProveMessage` -/

/-- The arguments of a `callProveWithdrawalTransaction` invocation, i.e. an
L1 prove transaction actually sent. -/
structure ProveCall where
  withdrawalTx : WithdrawalTransaction
  l2OutputIndex : Nat
  outputRootProof : OutputRootProof
  withdrawalProof : List (List Nat)
deriving DecidableEq

/-- Error kinds of `ProveMessage`, one per `return fmt.Errorf` site in the
Go function, carrying the wrapped error string where there is one. -/
inductive ProveErr
  | getMessages (e : String)
  | getOutputIndex (e : String)
  | getOutputData (e : String)
  | nilEventData
  | needNewerOutput (txBlock outputBlock : Nat)
  | genProof (e : String)
  | outputRootMismatch
  | callProve (e : String)
deriving DecidableEq

/-- Non-error outcomes of `ProveMessage`. -/
inductive ProveOk
  | alreadySettled
  | proved
deriving DecidableEq

/-- External-call results consumed by `ProveMessage`: the materialized
message (`getMessages`), the two oracle reads (as functions of the block
number resp. output index actually passed), the proof-generation
environment for the block the proof is requested at, and the L1
transaction send/wait result. -/
structure ProveEnv where
  keccak : List Nat → B32
  messageRes : Except String Message
  getL2OutputIndexRes : Nat → Except String Nat
  getL2OutputRes : Nat → Except String OutputProposal
  genProofEnv : Nat → GenProofEnv
  callProveRes : Except String Unit

/-- Go `ProveMessage` (enhanced_parser.go), translated control-flow step by
step.  The second component records the `callProveWithdrawalTransaction`
invocation, if one was made (`none` = no L1 transaction sent). -/
def ProveMessage (env : ProveEnv) : Except ProveErr ProveOk × Option ProveCall :=
  match env.messageRes with
  | .error e => (.error (.getMessages e), none)
  | .ok message =>
      if message.status ≥ 2 then (.ok .alreadySettled, none)
      else
        match env.getL2OutputIndexRes message.blockNumber with
        | .error e => (.error (.getOutputIndex e), none)
        | .ok outputIndex =>
            match env.getL2OutputRes outputIndex with
            | .error e => (.error (.getOutputData e), none)
            | .ok outputData =>
                match message.messagePassedEvent with
                | none => (.error .nilEventData, none)
                | some eventData =>
                    if message.blockNumber > outputData.l2BlockNumber then
                      (.error (.needNewerOutput message.blockNumber outputData.l2BlockNumber),
                       none)
                    else
                      match (generateWithdrawalProofForBlock
                          (env.genProofEnv outputData.l2BlockNumber) env.keccak message).1 with
                      | .error e => (.error (.genProof e), none)
                      | .ok withdrawalProof =>
                          let outputRootProof : OutputRootProof :=
                            { version := zero32
                              stateRoot := withdrawalProof.stateRoot
                              messagePasserStorageRoot := withdrawalProof.messagePasserStorageRoot
                              latestBlockhash := withdrawalProof.latestBlockhash }
                          let calculatedOutputRoot := calculateOutputRoot env.keccak outputRootProof
                          if calculatedOutputRoot ≠ outputData.outputRoot then
                            (.error .outputRootMismatch, none)
                          else
                            let withdrawalTx : WithdrawalTransaction :=
                              { nonce := message.msgNonce
                                sender := eventData.sender
                                target := eventData.target
                                mntValue := message.mntValue
                                ethValue := message.ethValue
                                gasLimit := eventData.gasLimit
                                data := eventData.data }
                            let call : ProveCall :=
                              { withdrawalTx := withdrawalTx
                                l2OutputIndex := outputIndex
                                outputRootProof := outputRootProof
                                withdrawalProof := withdrawalProof.withdrawalProof }
                            match env.callProveRes with
                            | .error e => (.error (.callProve e), some call)
                            | .ok _ => (.ok .proved, some call)

/-! ### Event-log parsing and `getMessages` -/

/-- A receipt log as used by the enhanced parsers (address, topics, log
index).  Addresses and topics are canonical hex strings as produced by
go-ethereum's `Address`/`Hash` `String()`. -/
structure GoLog where
  address : String
  topics : List String
  index : Nat
deriving DecidableEq

/-- An L2 transaction receipt. -/
structure Receipt where
  txHash : String
  blockNumber : Nat
  logs : List GoLog
deriving DecidableEq

/-- Go `SentMessage(address,address,bytes,uint256,uint256)` topic. -/
def sentMessageTopic : String :=
  "0xcb0f7ffd78f9aee47a248fae8db181db6eee833039123e026dcbff529522e52a"

/-- Go `SentMessageExtension1(address,uint256,uint256)` topic. -/
def sentMessageExtension1Topic : String :=
  "0xcf00802ba1f8c659140235227979ca08afaba336a9f9fdc4a5107ed9e8013d08"

/-- Go `MessagePassed(uint256,address,address,uint256,uint256,bytes,bytes32)`
topic. -/
def messagePassedTopic : String :=
  "0x5da382596b838a63b4248e533d8e399b3b0f13ba6c6679f670489d44716cb173"

/-- Go `strings.EqualFold` on the ASCII hex strings involved: equality after
lower-casing. -/
def strEqualFold (a b : String) : Bool := a.toLower == b.toLower

/-- The Go topic test `len(log.Topics) > 0 && strings.EqualFold(log.Topics[0], topic)`. -/
def logTopicMatches (log : GoLog) (topic : String) : Bool :=
  match log.topics with
  | [] => false
  | t :: _ => strEqualFold t topic

/-- Go `parseMessagePassedLogsEnhanced` (enhanced_parser.go): scan the receipt
logs for the `MessagePassed` topic at the message-passer address; on a
match, `messagePassed, _ = parseMessagePassedWithABI(log)` overwrites the
result with the ABI-parse outcome (parse errors are discarded, leaving
nil).  The function's error return is always nil. -/
def parseMessagePassedLogsEnhanced (passerAddr : String)
    (parseMP : GoLog → Option MessagePassed) (receipt : Receipt) :
    Option MessagePassed × Option String :=
  (receipt.logs.foldl
    (fun acc log =>
      if log.address = passerAddr then
        if logTopicMatches log messagePassedTopic then parseMP log else acc
      else acc)
    none, none)

/-- Go `parseSentMessageExtension1LogsEnhanced` (enhanced_parser.go): same
scan pattern, filtered — as in the source — by the message-passer address,
for the `SentMessageExtension1` topic.  The error return is always nil. -/
def parseSentMessageExtension1LogsEnhanced (passerAddr : String)
    (parseExt1 : GoLog → Option SentMessageExtension1) (receipt : Receipt) :
    Option SentMessageExtension1 × Option String :=
  (receipt.logs.foldl
    (fun acc log =>
      if log.address = passerAddr then
        if logTopicMatches log sentMessageExtension1Topic then parseExt1 log else acc
      else acc)
    none, none)

/-- Go `parseSentMessageLogsEnhanced` (enhanced_parser.go): build the base
`Message` from the last `SentMessage`-matching log at the messenger
address; starts from the zero-valued `Message` and never errors. -/
def parseSentMessageLogsEnhanced (messengerAddr : String)
    (parseSM : GoLog → Option SentMessage) (receipt : Receipt) :
    Message × Option String :=
  (receipt.logs.foldl
    (fun acc log =>
      if log.address = messengerAddr then
        if logTopicMatches log sentMessageTopic then
          { txHash := receipt.txHash
            blockNumber := receipt.blockNumber
            logIndex := log.index
            direction := "L2_TO_L1"
            status := 0
            sentMessageEvent := parseSM log }
        else acc
      else acc)
    {}, none)

/-- Outcome of a Go call that can also crash on a nil-pointer
dereference. -/
inductive GoResult (α : Type)
  | ok (a : α)
  | err (e : String)
  | panics
deriving DecidableEq

/-- External inputs of `getMessages`: the L2 receipt fetch, the configured
contract addresses, the three ABI event parsers (errors discarded by the
callers, hence `Option`), and the portal reads behind `getMessageStatus`. -/
structure GetMessagesEnv where
  receiptRes : Except String Receipt
  messengerAddr : String
  passerAddr : String
  parseSM : GoLog → Option SentMessage
  parseMP : GoLog → Option MessagePassed
  parseExt1 : GoLog → Option SentMessageExtension1
  statusEnv : StatusEnv

/-- Go `getMessages` (enhanced_parser.go), translated statement by statement.
After `parseMessagePassedLogsEnhanced` returns (its error is always nil,
so the error branch is dead), the Go code runs
`message.MsgNonce = messagePassed.Nonce` — a nil-pointer dereference, i.e.
a runtime panic, whenever no `MessagePassed` event was found. -/
def getMessages (env : GetMessagesEnv) : GoResult Message :=
  match env.receiptRes with
  | .error e => .err ("failed to get transaction receipt: " ++ e)
  | .ok receipt =>
      let message := (parseSentMessageLogsEnhanced env.messengerAddr env.parseSM receipt).1
      let messagePassed := (parseMessagePassedLogsEnhanced env.passerAddr env.parseMP receipt).1
      let message := { message with messagePassedEvent := messagePassed }
      match messagePassed with
      | none => .panics
      | some mp =>
          let message :=
            { message with msgNonce := mp.nonce, withdrawalHash := mp.withdrawalHash }
          let ext1 :=
            (parseSentMessageExtension1LogsEnhanced env.passerAddr env.parseExt1 receipt).1
          let message := { message with sentMessageExtension1Event := ext1 }
          let message :=
            match ext1 with
            | some e =>
                { message with
                    mntValue := match e.mntValue with | none => 0 | some v => v
                    ethValue := match e.ethValue with | none => 0 | some v => v }
            | none => { message with mntValue := 0, ethValue := 0 }
          .ok { message with status := getMessageStatus env.statusEnv }

/-! ### The withdrawal scheduler (`scheduler` binary, `CheckWithdrawal`) -/

/-- Go `WithdrawalStatus` (scheduler): the per-withdrawal flags. -/
structure WithdrawalStatus where
  sentWaitingMessage : Bool := false
  sent5MinuteReminder : Bool := false
  finalized : Bool := false
deriving DecidableEq

/-- The scheduler's `withdrawalStatus` map, as an association list. -/
def StatusMap := List (String × WithdrawalStatus)

instance : DecidableEq StatusMap :=
  inferInstanceAs (DecidableEq (List (String × WithdrawalStatus)))

/-- Map lookup (`s.withdrawalStatus[txHash]`). -/
def lookupStatus (m : StatusMap) (tx : String) : Option WithdrawalStatus :=
  match m with
  | [] => none
  | (k, v) :: rest => if k = tx then some v else lookupStatus rest tx

/-- Map store (`s.withdrawalStatus[txHash] = st`). -/
def setStatus (m : StatusMap) (tx : String) (st : WithdrawalStatus) : StatusMap :=
  match m with
  | [] => [(tx, st)]
  | (k, v) :: rest => if k = tx then (tx, st) :: rest else (k, v) :: setStatus rest tx st

/-- The status actually used for `tx` this tick (a missing entry behaves as
the freshly inserted zero value). -/
def statusOf (m : StatusMap) (tx : String) : WithdrawalStatus :=
  (lookupStatus m tx).getD {}

/-- Go `if status == nil { status = &WithdrawalStatus{}; map[tx] = status }`. -/
def ensureStatus (m : StatusMap) (tx : String) : StatusMap :=
  match lookupStatus m tx with
  | some _ => m
  | none => setStatus m tx {}

/-- Go `allFinalized` loop body of `CheckWithdrawal`: every tracked
withdrawal's `finalized` flag is set. -/
def allFinalized (m : StatusMap) : Bool :=
  List.all m (fun p => p.2.finalized)

/-- The Telegram notices `CheckWithdrawal` can emit, one constructor per
`sendTelegramMessage` call site. -/
inductive Notice
  | alreadyFinalized
  | readyToFinalize
  | startingFinalize
  | finalizeFailed
  | finalizeSuccess
  | allCompleted
  | waitingChallenge
  | fiveMinuteReminder
  | readyToProve
  | startingProve
  | proveFailed
  | proveSuccess
  | provePending
deriving DecidableEq

/-- Observable actions of one `CheckWithdrawal` call, in program order:
Telegram notices, the two L1 submissions, and `s.Stop()` (context
cancellation, which makes `Start` return and the process exit 0). -/
inductive SchedAction
  | tg (n : Notice)
  | callFinalize
  | callProve
  | stop
deriving DecidableEq

/-- Error kinds of `CheckWithdrawal`, one per `return fmt.Errorf` site. -/
inductive CheckErr
  | getMessage (e : String)
  | latestProposed (e : String)
  | provenStatus (e : String)
  | finalize (e : String)
  | prove (e : String)
deriving DecidableEq

/-- External-call results consumed by one `CheckWithdrawal` call:
`messenger.GetMessages`, `GetLatestProposedL2Block`,
`messenger.CheckProvenStatus`, `time.Now().Unix()`, and the outcomes of
`messenger.FinalizeMessage` / `messenger.ProveMessage` as the scheduler
sees them. -/
structure CheckEnv where
  getMessagesRes : Except String Message
  latestProposedRes : Except String Nat
  checkProvenRes : Except String (Bool × Nat)
  now : Nat
  finalizeRes : Except String Unit
  proveRes : Except String Unit
deriving DecidableEq

/-- The challenge period fixed by the scheduler: 12 hours in seconds. -/
def challengePeriod : Nat := 43200

/-- The reminder threshold: 5 minutes in seconds. -/
def fiveMinutes : Nat := 300

/-- Go `WithdrawalScheduler.CheckWithdrawal` (scheduler binary), translated
control-flow step by step.  Returns the updated status map, the emitted
actions in order, and the Go error result. -/
def CheckWithdrawal (tx : String) (env : CheckEnv) (m : StatusMap) :
    StatusMap × List SchedAction × Except CheckErr Unit :=
  if tx = "" then (m, [], .ok ())
  else
    let st := statusOf m tx
    let m1 := ensureStatus m tx
    match env.getMessagesRes with
    | .error e => (m1, [], .error (.getMessage e))
    | .ok message =>
        match env.latestProposedRes with
        | .error e => (m1, [], .error (.latestProposed e))
        | .ok latestProposed =>
            if latestProposed ≥ message.blockNumber then
              if message.status ≥ 2 then
                (setStatus m1 tx { st with finalized := true },
                 [.tg .alreadyFinalized], .ok ())
              else if message.status = 1 then
                match env.checkProvenRes with
                | .error e => (m1, [], .error (.provenStatus e))
                | .ok (isProven, provenTimestamp) =>
                    if isProven = false then (m1, [], .ok ())
                    else
                      let finalizeTime := provenTimestamp + challengePeriod
                      if env.now ≥ finalizeTime then
                        let st1 := { st with sentWaitingMessage := false,
                                             sent5MinuteReminder := false }
                        let m2 := setStatus m1 tx st1
                        match env.finalizeRes with
                        | .error e =>
                            (m2,
                             [.tg .readyToFinalize, .tg .startingFinalize,
                              .callFinalize, .tg .finalizeFailed],
                             .error (.finalize e))
                        | .ok _ =>
                            let m3 := setStatus m2 tx { st1 with finalized := true }
                            if allFinalized m3 then
                              (m3,
                               [.tg .readyToFinalize, .tg .startingFinalize,
                                .callFinalize, .tg .finalizeSuccess,
                                .tg .allCompleted, .stop],
                               .ok ())
                            else
                              (m3,
                               [.tg .readyToFinalize, .tg .startingFinalize,
                                .callFinalize, .tg .finalizeSuccess],
                               .ok ())
                      else
                        let remainingTime := finalizeTime - env.now
                        if st.sentWaitingMessage = false then
                          (setStatus m1 tx { st with sentWaitingMessage := true },
                           [.tg .waitingChallenge], .ok ())
                        else if remainingTime ≤ fiveMinutes ∧ st.sent5MinuteReminder = false then
                          (setStatus m1 tx { st with sent5MinuteReminder := true },
                           [.tg .fiveMinuteReminder], .ok ())
                        else (m1, [], .ok ())
              else
                match env.proveRes with
                | .error e =>
                    (m1,
                     [.tg .readyToProve, .tg .startingProve, .callProve, .tg .proveFailed],
                     .error (.prove e))
                | .ok _ =>
                    (m1,
                     [.tg .readyToProve, .tg .startingProve, .callProve, .tg .proveSuccess],
                     .ok ())
            else
              (m1, [.tg .provePending], .ok ())

/-- Go `CheckAllWithdrawals` (one scheduler tick): run `CheckWithdrawal` for
each tracked hash in order, threading the status map and collecting the
actions (per-withdrawal errors are only logged and do not stop the
tick). -/
def CheckAllWithdrawals (hashes : List String) (envOf : String → CheckEnv)
    (m : StatusMap) : StatusMap × List SchedAction :=
  match hashes with
  | [] => (m, [])
  | tx :: rest =>
      let r := CheckWithdrawal tx (envOf tx) m
      let r' := CheckAllWithdrawals rest envOf r.1
      (r'.1, r.2.1 ++ r'.2)

/-- Repeated `CheckWithdrawal` calls for one withdrawal across successive
ticks, each tick with its own external-call results. -/
def runChecks (tx : String) (envs : List CheckEnv) (m : StatusMap) :
    StatusMap × List SchedAction :=
  match envs with
  | [] => (m, [])
  | env :: rest =>
      let r := CheckWithdrawal tx env m
      let r' := runChecks tx rest r.1
      (r'.1, r.2.1 ++ r'.2)

/-- Number of occurrences of one notice in an action list. -/
def countNotice (n : Notice) : List SchedAction → Nat
  | [] => 0
  | a :: rest => (if a = SchedAction.tg n then 1 else 0) + countNotice n rest

/-- The external-call shape that keeps a withdrawal in the PROVEN,
still-inside-challenge-period branch of `CheckWithdrawal`. -/
def inWaitingBranch (env : CheckEnv) : Prop :=
  ∃ message latestProposed provenTimestamp,
    env.getMessagesRes = .ok message ∧
    env.latestProposedRes = .ok latestProposed ∧
    latestProposed ≥ message.blockNumber ∧
    message.status = 1 ∧
    env.checkProvenRes = .ok (true, provenTimestamp) ∧
    env.now < provenTimestamp + challengePeriod

/-! ### Concrete instances used by witnesses and counterexamples -/

/-- A constant stand-in for the uninterpreted keccak256. -/
def keccakConst (w : B32) : List Nat → B32 := fun _ => w

/-- A non-zero 32-byte word. -/
def one32 : B32 := ⟨1 :: List.replicate 31 0, by simp⟩

/-- A sample decoded `MessagePassed` event. -/
def sampleEvent : MessagePassed :=
  { nonce := 1
    sender := "0x00000000000000000000000000000000000000aa"
    target := "0x00000000000000000000000000000000000000bb"
    gasLimit := 100000
    data := []
    withdrawalHash := one32 }

/-- A ready-to-prove message at L2 block 5. -/
def c1Message : Message :=
  { txHash := "0xabc", blockNumber := 5, status := 0,
    withdrawalHash := one32, messagePassedEvent := some sampleEvent }

/-- Proof-generation inputs whose storage value is the expected `0x1`. -/
def c1GenEnv : GenProofEnv :=
  { headerRes := .ok { root := one32, hash := one32 }
    getProofRes := .ok
      { accountProof := []
        storageProof := [{ key := "0x11", value := "0x1", proof := [[1]] }]
        storageHash := one32 }
    maybeAddProofNodeRes := fun _ p => .ok p }

/-- A prove run in which every external call succeeds but the recomputed
output root (`zero32` under the constant keccak) differs from the oracle's
`one32`. -/
def c1Env : ProveEnv :=
  { keccak := keccakConst zero32
    messageRes := .ok c1Message
    getL2OutputIndexRes := fun _ => .ok 7
    getL2OutputRes := fun _ => .ok { outputRoot := one32, timestamp := 0, l2BlockNumber := 9 }
    genProofEnv := fun _ => c1GenEnv
    callProveRes := .ok () }

/-- A non-empty withdrawal transaction hash for the scheduler samples. -/
def sampleTx : String := "0x2ddc5affc8b98cf6c9e5157347d726d0b11c79e9697a3d27ec55aa9693f9baf2"

/-- Scheduler inputs: PROVEN withdrawal whose portal record carries a
non-zero output root but a zero timestamp, observed at `now = 43200`. -/
def c2Env : CheckEnv :=
  { getMessagesRes := .ok { c1Message with status := 1 }
    latestProposedRes := .ok 10
    checkProvenRes := .ok (true, 0)
    now := 43200
    finalizeRes := .ok ()
    proveRes := .ok () }

/-- Scheduler inputs: PROVEN withdrawal proven at 100, observed exactly at
the challenge-period boundary `now = 43300`. -/
def c2BoundaryEnv : CheckEnv :=
  { getMessagesRes := .ok { c1Message with status := 1 }
    latestProposedRes := .ok 10
    checkProvenRes := .ok (true, 100)
    now := 43300
    finalizeRes := .ok ()
    proveRes := .ok () }

/-- Proof-generation inputs whose storage value decodes to `0x0`, not the
boolean 1. -/
def c4Env : GenProofEnv :=
  { headerRes := .ok { root := one32, hash := one32 }
    getProofRes := .ok
      { accountProof := []
        storageProof := [{ key := "0x11", value := "0x0", proof := [[1], [2, 3]] }]
        storageHash := one32 }
    maybeAddProofNodeRes := fun _ p => .ok p }

/-- A prove run whose withdrawal sits at L2 block 10 while the oracle's
chosen output only covers up to block 5. -/
def c5Env : ProveEnv :=
  { keccak := keccakConst zero32
    messageRes := .ok { c1Message with blockNumber := 10 }
    getL2OutputIndexRes := fun _ => .ok 7
    getL2OutputRes := fun _ => .ok { outputRoot := one32, timestamp := 0, l2BlockNumber := 5 }
    genProofEnv := fun _ => c1GenEnv
    callProveRes := .ok () }

/-- Portal reads: not finalized, proven with root `one32` at time 77. -/
def c6Env : StatusEnv :=
  { finalizedRes := .ok false, provenRes := .ok (one32, 77), now := 0 }

/-- Scheduler inputs: ready-to-prove withdrawal whose prove succeeds. -/
def c7Env : CheckEnv :=
  { getMessagesRes := .ok c1Message
    latestProposedRes := .ok 10
    checkProvenRes := .ok (true, 0)
    now := 0
    finalizeRes := .ok ()
    proveRes := .ok () }

/-- A status map in which both notification flags are already set. -/
def c7Map : StatusMap := [(sampleTx, { sentWaitingMessage := true, sent5MinuteReminder := true })]

/-- Scheduler inputs: PROVEN withdrawal, proven at 100, still inside the
challenge period at `now = 200`. -/
def c7WaitEnv : CheckEnv :=
  { getMessagesRes := .ok { c1Message with status := 1 }
    latestProposedRes := .ok 10
    checkProvenRes := .ok (true, 100)
    now := 200
    finalizeRes := .ok ()
    proveRes := .ok () }

/-- Scheduler inputs: withdrawal already FINALIZED on-chain (status 2). -/
def c8ObservedEnv : CheckEnv :=
  { getMessagesRes := .ok { c1Message with status := 2 }
    latestProposedRes := .ok 10
    checkProvenRes := .ok (true, 100)
    now := 50000
    finalizeRes := .ok ()
    proveRes := .ok () }

/-- Scheduler inputs: PROVEN withdrawal past the challenge period whose
finalize transaction succeeds. -/
def c8FinalizeEnv : CheckEnv :=
  { getMessagesRes := .ok { c1Message with status := 1 }
    latestProposedRes := .ok 10
    checkProvenRes := .ok (true, 100)
    now := 50000
    finalizeRes := .ok ()
    proveRes := .ok () }

/-- One tick over the single tracked withdrawal that is observed already
finalized on-chain. -/
def c8Tick : StatusMap × List SchedAction :=
  CheckAllWithdrawals [sampleTx] (fun _ => c8ObservedEnv) []

/-- Oracle reads that both fail. -/
def c9Env : CanFinalizeEnv :=
  { getL2OutputIndexRes := .error ("rpc timeout")
    getL2OutputDataRes := fun _ => .error ("rpc timeout")
    now := 0 }

/-- An L2 receipt containing no logs at all (so certainly no
`MessagePassed` log). -/
def c10Receipt : Receipt := { txHash := "0xdead", blockNumber := 3, logs := [] }

/-- A `getMessages` run on that receipt. -/
def c10Env : GetMessagesEnv :=
  { receiptRes := .ok c10Receipt
    messengerAddr := "0x4200000000000000000000000000000000000007"
    passerAddr := "0x4200000000000000000000000000000000000016"
    parseSM := fun _ => none
    parseMP := fun _ => none
    parseExt1 := fun _ => none
    statusEnv := { finalizedRes := .ok false, provenRes := .ok (zero32, 0), now := 0 } }

/-! ## Helper lemmas -/

theorem lookupStatus_set (m : StatusMap) (tx : String) (st : WithdrawalStatus) :
    lookupStatus (setStatus m tx st) tx = some st := by
  induction m with
  | nil => simp [setStatus, lookupStatus]
  | cons p rest ih =>
      obtain ⟨k, v⟩ := p
      by_cases h : k = tx
      · simp [setStatus, lookupStatus, h]
      · simp [setStatus, lookupStatus, h, ih]

theorem statusOf_set (m : StatusMap) (tx : String) (st : WithdrawalStatus) :
    statusOf (setStatus m tx st) tx = st := by
  simp [statusOf, lookupStatus_set]

theorem statusOf_ensure (m : StatusMap) (tx : String) :
    statusOf (ensureStatus m tx) tx = statusOf m tx := by
  unfold ensureStatus
  cases h : lookupStatus m tx with
  | some v => rfl
  | none => simp [statusOf, h, lookupStatus_set]

theorem countNotice_append (n : Notice) (l1 l2 : List SchedAction) :
    countNotice n (l1 ++ l2) = countNotice n l1 + countNotice n l2 := by
  induction l1 with
  | nil => simp [countNotice]
  | cons a rest ih => simp [countNotice, ih]; omega

/-! ## C3 — storage-slot derivation -/

/-- Claim C3: for every 32-byte withdrawal hash `h`, `calculateSentMessagesSlot h`
is `keccak256(h ++ bytes32(0))`: keccak of the 64-byte concatenation of `h`
and the 32-byte big-endian encoding of mapping slot 0, which is 32 zero
bytes. -/
theorem calculateSentMessagesSlot_spec (keccak : List Nat → B32) (h : B32) :
    calculateSentMessagesSlot keccak h = keccak (h.val ++ List.replicate 32 0) ∧
    (bigToHash 0).val = List.replicate 32 0 ∧
    (h.val ++ (bigToHash 0).val).length = 64 := by
  have hz : (bigToHash 0).val = List.replicate 32 0 := by decide
  refine ⟨?_, hz, ?_⟩
  · show keccak (h.val ++ (bigToHash 0).val) = keccak (h.val ++ List.replicate 32 0)
    rw [hz]
  · rw [hz]
    simp [h.property]

/-! ## C1 — output-root self-check in `ProveMessage` -/

/-- Claim C1: `calculateOutputRoot` is keccak256 of the 128-byte in-order
concatenation `version ++ stateRoot ++ messagePasserStorageRoot ++
latestBlockhash`, and whenever a `ProveMessage` run assembles its
`OutputRootProof` and that digest differs from the oracle's `outputRoot`
for the chosen output, `ProveMessage` returns the output-root-mismatch
error with no `callProveWithdrawalTransaction` invocation. -/
theorem proveMessage_outputRoot_check :
    (∀ (keccak : List Nat → B32) (p : OutputRootProof),
      calculateOutputRoot keccak p =
        keccak (p.version.val ++ p.stateRoot.val ++
          p.messagePasserStorageRoot.val ++ p.latestBlockhash.val) ∧
      (p.version.val ++ p.stateRoot.val ++
        p.messagePasserStorageRoot.val ++ p.latestBlockhash.val).length = 128) ∧
    (∀ (env : ProveEnv) (message : Message) (outputIndex : Nat)
      (outputData : OutputProposal) (eventData : MessagePassed)
      (wp : WithdrawalProofData),
      env.messageRes = .ok message →
      message.status < 2 →
      env.getL2OutputIndexRes message.blockNumber = .ok outputIndex →
      env.getL2OutputRes outputIndex = .ok outputData →
      message.messagePassedEvent = some eventData →
      message.blockNumber ≤ outputData.l2BlockNumber →
      (generateWithdrawalProofForBlock (env.genProofEnv outputData.l2BlockNumber)
        env.keccak message).1 = .ok wp →
      calculateOutputRoot env.keccak
        { version := zero32
          stateRoot := wp.stateRoot
          messagePasserStorageRoot := wp.messagePasserStorageRoot
          latestBlockhash := wp.latestBlockhash } ≠ outputData.outputRoot →
      ProveMessage env = (.error .outputRootMismatch, none)) := by
  constructor
  · intro keccak p
    refine ⟨rfl, ?_⟩
    simp [p.version.property, p.stateRoot.property,
      p.messagePasserStorageRoot.property, p.latestBlockhash.property]
  · intro env message outputIndex outputData eventData wp
      h1 h2 h3 h4 h5 h6 h7 h8
    have hs : ¬ message.status ≥ 2 := by omega
    have hb : ¬ message.blockNumber > outputData.l2BlockNumber := by omega
    simp [ProveMessage, h1, h3, h4, h5, h7, hs, hb, h8]

/-- Witness for C1 at `c1Env`: the recomputed root (`zero32` under the
constant keccak) differs from the oracle's `one32` and `ProveMessage`
aborts without an L1 call. -/
theorem proveMessage_outputRoot_check_witness :
    ProveMessage c1Env = (.error .outputRootMismatch, none) :=
  proveMessage_outputRoot_check.2 c1Env c1Message 7
    { outputRoot := one32, timestamp := 0, l2BlockNumber := 9 } sampleEvent
    { withdrawalProof := [[1]], messagePasserStorageRoot := one32,
      latestBlockhash := one32, stateRoot := one32 }
    rfl (by decide) rfl rfl rfl (by decide) rfl (by decide)

/-! ## C6 — `getMessageStatus` ordering of portal reads -/

/-- Claim C6: with both portal reads succeeding, `getMessageStatus` returns 2
when `finalizedWithdrawals` is true, else 1 exactly when the
`provenWithdrawals` output root is non-zero, else 0; and
`checkProvenStatus` reports proven exactly on a non-zero output root,
returning the stored timestamp alongside. -/
theorem getMessageStatus_spec (env : StatusEnv) (b : Bool) (root : B32) (ts : Nat)
    (h1 : env.finalizedRes = .ok b) (h2 : env.provenRes = .ok (root, ts)) :
    getMessageStatus env = (if b then 2 else if root = zero32 then 0 else 1) ∧
    checkProvenStatus env = .ok (if root = zero32 then false else true, ts) := by
  have hp : checkProvenStatus env = .ok (if root = zero32 then false else true, ts) := by
    simp [checkProvenStatus, h2]
  refine ⟨?_, hp⟩
  cases b with
  | true => simp [getMessageStatus, h1]
  | false =>
      by_cases hr : root = zero32 <;>
        simp [getMessageStatus, h1, hp, hr]

/-- Witness for C6 at `c6Env`: not finalized, root `one32` proven at 77. -/
theorem getMessageStatus_spec_witness :
    getMessageStatus c6Env = 1 ∧ checkProvenStatus c6Env = .ok (true, 77) := by
  have h := getMessageStatus_spec c6Env false one32 77 rfl rfl
  have hr : ¬ (one32 = zero32) := by decide
  constructor
  · rw [h.1]; simp [hr]
  · rw [h.2]; simp [hr]

/-! ## C9 — `checkCanFinalize` assumes readiness on RPC failure -/

/-- Claim C9: whenever the oracle index read or the oracle output read fails,
`checkCanFinalize` returns `(true, nil)`. -/
theorem checkCanFinalize_heuristic (env : CanFinalizeEnv) :
    (∀ e, env.getL2OutputIndexRes = .error e → checkCanFinalize env = .ok true) ∧
    (∀ outputIndex e, env.getL2OutputIndexRes = .ok outputIndex →
      env.getL2OutputDataRes outputIndex = .error e →
      checkCanFinalize env = .ok true) := by
  constructor
  · intro e h
    simp [checkCanFinalize, h]
  · intro outputIndex e h1 h2
    simp [checkCanFinalize, h1, h2]

/-- Witness for C9 at `c9Env`: the index read fails and the result is
`(true, nil)`. -/
theorem checkCanFinalize_heuristic_witness : checkCanFinalize c9Env = .ok true :=
  (checkCanFinalize_heuristic c9Env).1 ("rpc timeout") rfl

/-! ## C4 — storage value other than 0x1 is only a warning -/

/-- Counterexample to C4: with storage value `0x0` (and every external call
succeeding) `generateWithdrawalProofForBlock` does not fail — it returns
the assembled withdrawal proof, merely setting the warning flag. -/
theorem generateWithdrawalProof_badValue_counterexample :
    generateWithdrawalProofForBlock c4Env (keccakConst zero32) c1Message =
      (.ok { withdrawalProof := [[1], [2, 3]], messagePasserStorageRoot := one32,
             latestBlockhash := one32, stateRoot := one32 }, true) := rfl

/-- Claim C4 amended: a storage value that does not decode to the boolean 1 only
triggers the "Expected storage value 0x1" warning — the withdrawal proof is
still produced and returned, so the prove pipeline continues with it.  The
only storage-proof hard error in `generateWithdrawalProofForBlock` is an
empty `storageProof` array. -/
theorem generateWithdrawalProof_badValue_warns :
    (∀ (env : GenProofEnv) (keccak : List Nat → B32) (message : Message)
      (block : BlockHeader) (pr : GetProofResult) (entry : StorageProofEntry)
      (rest : List StorageProofEntry) (finalProof : List (List Nat)),
      env.headerRes = .ok block →
      env.getProofRes = .ok pr →
      pr.storageProof = entry :: rest →
      entry.value ≠ "0x1" →
      entry.value ≠ "0x01" →
      env.maybeAddProofNodeRes (calculateSentMessagesSlot keccak message.withdrawalHash)
        entry.proof = .ok finalProof →
      generateWithdrawalProofForBlock env keccak message =
        (.ok { withdrawalProof := finalProof
               messagePasserStorageRoot := pr.storageHash
               latestBlockhash := block.hash
               stateRoot := block.root }, true)) ∧
    (∀ (env : GenProofEnv) (keccak : List Nat → B32) (message : Message)
      (block : BlockHeader) (pr : GetProofResult),
      env.headerRes = .ok block →
      env.getProofRes = .ok pr →
      pr.storageProof = [] →
      generateWithdrawalProofForBlock env keccak message =
        (.error ("no storage proof returned for withdrawal hash"), false)) := by
  constructor
  · intro env keccak message block pr entry rest finalProof h1 h2 h3 h4 h5 h6
    have b4 : (entry.value == "0x1") = false := beq_eq_false_iff_ne.mpr h4
    have b5 : (entry.value == "0x01") = false := beq_eq_false_iff_ne.mpr h5
    simp [generateWithdrawalProofForBlock, h1, h2, h3, h6, b4, b5]
  · intro env keccak message block pr h1 h2 h3
    simp [generateWithdrawalProofForBlock, h1, h2, h3]

/-- Witness for the amended C4 at `c4Env` (storage value `0x0`). -/
theorem generateWithdrawalProof_badValue_warns_witness :
    generateWithdrawalProofForBlock c4Env (keccakConst one32) c1Message =
      (.ok { withdrawalProof := [[1], [2, 3]], messagePasserStorageRoot := one32,
             latestBlockhash := one32, stateRoot := one32 }, true) :=
  generateWithdrawalProof_badValue_warns.1 c4Env (keccakConst one32) c1Message
    { root := one32, hash := one32 }
    { accountProof := []
      storageProof := [{ key := "0x11", value := "0x0", proof := [[1], [2, 3]] }]
      storageHash := one32 }
    { key := "0x11", value := "0x0", proof := [[1], [2, 3]] } []
    [[1], [2, 3]] rfl rfl rfl (by decide) (by decide) rfl

/-! ## C5 — withdrawal newer than the chosen oracle output -/

/-- Counterexample to C5: with the withdrawal at L2 block 10 and the chosen
output covering only block 5, `ProveMessage` returns an *error* (the Go
`fmt.Errorf("transaction block ... is after L2 output block ...")`), not a
non-error "no eligible output yet" outcome. -/
theorem proveMessage_needNewerOutput_counterexample :
    (ProveMessage c5Env).1 = .error (.needNewerOutput 10 5) := rfl

/-- Claim C5 amended: when the withdrawal's L2 block exceeds the chosen output's
`l2BlockNumber`, `ProveMessage` returns the need-newer-output *error* and
sends no L1 transaction; the scheduler then reports the prove failure,
leaves the status map unchanged, and does not stop the ticker, so the next
tick retries. -/
theorem proveMessage_needNewerOutput :
    (∀ (env : ProveEnv) (message : Message) (outputIndex : Nat)
      (outputData : OutputProposal) (eventData : MessagePassed),
      env.messageRes = .ok message →
      message.status < 2 →
      env.getL2OutputIndexRes message.blockNumber = .ok outputIndex →
      env.getL2OutputRes outputIndex = .ok outputData →
      message.messagePassedEvent = some eventData →
      message.blockNumber > outputData.l2BlockNumber →
      ProveMessage env =
        (.error (.needNewerOutput message.blockNumber outputData.l2BlockNumber), none)) ∧
    (∀ (tx : String) (env : CheckEnv) (m : StatusMap) (message : Message)
      (latestProposed : Nat) (e : String),
      tx ≠ "" →
      env.getMessagesRes = .ok message →
      env.latestProposedRes = .ok latestProposed →
      latestProposed ≥ message.blockNumber →
      message.status = 0 →
      env.proveRes = .error e →
      SchedAction.tg Notice.proveFailed ∈ (CheckWithdrawal tx env m).2.1 ∧
      SchedAction.stop ∉ (CheckWithdrawal tx env m).2.1 ∧
      (CheckWithdrawal tx env m).1 = ensureStatus m tx) := by
  constructor
  · intro env message outputIndex outputData eventData h1 h2 h3 h4 h5 h6
    have hs : ¬ message.status ≥ 2 := by omega
    simp [ProveMessage, h1, h3, h4, h5, hs, h6]
  · intro tx env m message latestProposed e htx h1 h2 h3 h4 h5
    have hs2 : ¬ message.status ≥ 2 := by omega
    have hs1 : ¬ message.status = 1 := by omega
    simp [CheckWithdrawal, htx, h1, h2, h3, h5, hs2, hs1]

/-- Witness for the amended C5 at `c5Env` plus a failing scheduler prove
call. -/
theorem proveMessage_needNewerOutput_witness :
    ProveMessage c5Env = (.error (.needNewerOutput 10 5), none) ∧
    SchedAction.stop ∉
      (CheckWithdrawal sampleTx { c7Env with proveRes := .error ("prove failed") } []).2.1 := by
  constructor
  · exact proveMessage_needNewerOutput.1 c5Env { c1Message with blockNumber := 10 } 7
      { outputRoot := one32, timestamp := 0, l2BlockNumber := 5 } sampleEvent
      rfl (by decide) rfl rfl rfl (by decide)
  · exact (proveMessage_needNewerOutput.2 sampleTx
      { c7Env with proveRes := .error ("prove failed") } [] c1Message 10 ("prove failed")
      (by decide) rfl rfl (by decide) rfl rfl).2.1

/-! ## C10 — missing MessagePassed log panics in `getMessages` -/

theorem parseMessagePassed_foldl_no_match (passerAddr : String)
    (parseMP : GoLog → Option MessagePassed) (logs : List GoLog)
    (acc : Option MessagePassed)
    (h : ∀ log ∈ logs,
      ¬(log.address = passerAddr ∧ logTopicMatches log messagePassedTopic = true)) :
    logs.foldl
      (fun acc log =>
        if log.address = passerAddr then
          if logTopicMatches log messagePassedTopic then parseMP log else acc
        else acc)
      acc = acc := by
  induction logs generalizing acc with
  | nil => rfl
  | cons l ls ih =>
      have hl := h l (by simp)
      simp only [List.foldl_cons]
      have hstep :
          (if l.address = passerAddr then
            if logTopicMatches l messagePassedTopic then parseMP l else acc
          else acc) = acc := by
        by_cases ha : l.address = passerAddr
        · by_cases ht : logTopicMatches l messagePassedTopic
          · exact absurd ⟨ha, ht⟩ hl
          · simp [ha, ht]
        · simp [ha]
      rw [hstep]
      exact ih acc (fun log hm => h log (by simp [hm]))

/-- Claim C10: when the receipt holds no log matching the `MessagePassed` topic
at the message-passer address, `parseMessagePassedLogsEnhanced` returns a
nil event together with a nil error, and `getMessages` then dereferences
the nil pointer (`messagePassed.Nonce`) — a runtime panic rather than a
decode error. -/
theorem getMessages_missing_messagePassed_panics (env : GetMessagesEnv)
    (receipt : Receipt)
    (h1 : env.receiptRes = .ok receipt)
    (h2 : ∀ log ∈ receipt.logs,
      ¬(log.address = env.passerAddr ∧ logTopicMatches log messagePassedTopic = true)) :
    parseMessagePassedLogsEnhanced env.passerAddr env.parseMP receipt = (none, none) ∧
    getMessages env = .panics := by
  have hp : parseMessagePassedLogsEnhanced env.passerAddr env.parseMP receipt =
      (none, none) := by
    unfold parseMessagePassedLogsEnhanced
    rw [parseMessagePassed_foldl_no_match env.passerAddr env.parseMP receipt.logs none h2]
  refine ⟨hp, ?_⟩
  simp [getMessages, h1, hp]

/-- Witness for C10 at `c10Env` (a receipt with no logs). -/
theorem getMessages_missing_messagePassed_panics_witness :
    getMessages c10Env = .panics :=
  (getMessages_missing_messagePassed_panics c10Env c10Receipt rfl
    (by intro log hm; simp [c10Receipt] at hm)).2

/-! ## C2 — challenge-period math in `CheckWithdrawal` -/

/-- Counterexample to C2: portal record with non-zero output root but
`provenTimestamp = 0`, observed at `now = 43200`.  The claim says the
scheduler must not treat this as finalizable (`proven_at > 0` fails), yet
`CheckWithdrawal` proceeds to the finalize attempt. -/
theorem checkWithdrawal_zeroTimestamp_counterexample :
    SchedAction.callFinalize ∈ (CheckWithdrawal sampleTx c2Env []).2.1 := by decide

/-- Claim C2 amended: in the PROVEN branch `CheckWithdrawal` attempts the
finalize exactly when `now ≥ proven_at + 43200` — including the boundary —
with no `proven_at > 0` guard (that conjunct exists only in
`getMessageStatus`'s diagnostic log condition, `canFinalizeLogCondition`). -/
theorem checkWithdrawal_finalize_iff (tx : String) (env : CheckEnv) (m : StatusMap)
    (message : Message) (latestProposed provenTimestamp : Nat)
    (htx : tx ≠ "")
    (h1 : env.getMessagesRes = .ok message)
    (h2 : env.latestProposedRes = .ok latestProposed)
    (h3 : latestProposed ≥ message.blockNumber)
    (h4 : message.status = 1)
    (h5 : env.checkProvenRes = .ok (true, provenTimestamp)) :
    (SchedAction.callFinalize ∈ (CheckWithdrawal tx env m).2.1 ↔
      env.now ≥ provenTimestamp + challengePeriod) ∧
    (canFinalizeLogCondition env.now provenTimestamp =
      decide (env.now ≥ provenTimestamp + 43200 ∧ provenTimestamp > 0)) := by
  refine ⟨?_, rfl⟩
  have hs2 : ¬ message.status ≥ 2 := by omega
  by_cases hn : env.now ≥ provenTimestamp + challengePeriod
  · simp only [CheckWithdrawal, htx, h1, h2, h3, h4, h5, hs2, hn]
    cases hf : env.finalizeRes with
    | error e => simp
    | ok u =>
        simp
        split <;> simp
  · simp only [CheckWithdrawal, htx, h1, h2, h3, h4, h5, hs2, hn]
    simp
    split
    · simp
    · split <;> simp

/-- Witness for the amended C2 at the exact boundary
`now = proven_at + 43200` (`c2BoundaryEnv`): the finalize attempt fires. -/
theorem checkWithdrawal_finalize_iff_witness :
    SchedAction.callFinalize ∈ (CheckWithdrawal sampleTx c2BoundaryEnv []).2.1 :=
  (checkWithdrawal_finalize_iff sampleTx c2BoundaryEnv []
    { c1Message with status := 1 } 10 100
    (by decide) rfl rfl (by decide) rfl rfl).1.mpr (by decide)

/-! ## C7 — notification idempotence -/

theorem waiting_step_bound (tx : String) (env : CheckEnv) (m : StatusMap)
    (htx : tx ≠ "") (h : inWaitingBranch env) :
    countNotice .waitingChallenge (CheckWithdrawal tx env m).2.1 +
      (if (statusOf (CheckWithdrawal tx env m).1 tx).sentWaitingMessage then 0 else 1) ≤
      (if (statusOf m tx).sentWaitingMessage then 0 else 1) ∧
    countNotice .fiveMinuteReminder (CheckWithdrawal tx env m).2.1 +
      (if (statusOf (CheckWithdrawal tx env m).1 tx).sent5MinuteReminder then 0 else 1) ≤
      (if (statusOf m tx).sent5MinuteReminder then 0 else 1) := by
  obtain ⟨message, latestProposed, ts, h1, h2, h3, h4, h5, h6⟩ := h
  have hs2 : ¬ message.status ≥ 2 := by omega
  have hn : ¬ env.now ≥ ts + challengePeriod := by omega
  simp only [CheckWithdrawal, htx, h1, h2, h3, h4, h5, hs2, hn]
  simp
  split
  · rename_i hw
    constructor <;> simp [countNotice, statusOf_set, statusOf_ensure, hw]
  · rename_i hw
    split
    · rename_i hr
      have hw' : (statusOf m tx).sentWaitingMessage = true := by
        simpa using hw
      constructor <;>
        simp [countNotice, statusOf_set, statusOf_ensure, hr.2, hw']
    · constructor <;> simp [countNotice, statusOf_set, statusOf_ensure]

theorem waiting_run_bound (tx : String) (envs : List CheckEnv) (m : StatusMap)
    (htx : tx ≠ "") (henvs : ∀ e ∈ envs, inWaitingBranch e) :
    countNotice .waitingChallenge (runChecks tx envs m).2 +
      (if (statusOf (runChecks tx envs m).1 tx).sentWaitingMessage then 0 else 1) ≤
      (if (statusOf m tx).sentWaitingMessage then 0 else 1) ∧
    countNotice .fiveMinuteReminder (runChecks tx envs m).2 +
      (if (statusOf (runChecks tx envs m).1 tx).sent5MinuteReminder then 0 else 1) ≤
      (if (statusOf m tx).sent5MinuteReminder then 0 else 1) := by
  revert henvs
  induction envs generalizing m with
  | nil =>
      intro _
      simp [runChecks, countNotice]
  | cons e es ih =>
      intro henvs
      obtain ⟨hsW, hsR⟩ := waiting_step_bound tx e m htx (henvs e (by simp))
      obtain ⟨hrW, hrR⟩ :=
        ih (CheckWithdrawal tx e m).1 (fun e' he' => henvs e' (by simp [he']))
      simp only [runChecks, countNotice_append]
      constructor <;> omega

/-- Claim C7 amended: a withdrawal held in the PROVEN waiting branch across
arbitrarily many ticks receives at most one "waiting for challenge period"
notice and at most one "5 minutes remaining" notice (each flag is set when
its notice is sent); a successful *prove* leaves both flags unchanged; the
flags are instead reset when the challenge period has passed, on entering
the finalize attempt. -/
theorem checkWithdrawal_notification_idempotence :
    (∀ (tx : String) (envs : List CheckEnv) (m : StatusMap),
      tx ≠ "" → (∀ e ∈ envs, inWaitingBranch e) →
      countNotice .waitingChallenge (runChecks tx envs m).2 ≤ 1 ∧
      countNotice .fiveMinuteReminder (runChecks tx envs m).2 ≤ 1) ∧
    (∀ (tx : String) (env : CheckEnv) (m : StatusMap) (message : Message)
      (latestProposed : Nat),
      tx ≠ "" →
      env.getMessagesRes = .ok message →
      env.latestProposedRes = .ok latestProposed →
      latestProposed ≥ message.blockNumber →
      message.status = 0 →
      env.proveRes = .ok () →
      SchedAction.tg Notice.proveSuccess ∈ (CheckWithdrawal tx env m).2.1 ∧
      statusOf (CheckWithdrawal tx env m).1 tx = statusOf m tx) ∧
    (∀ (tx : String) (env : CheckEnv) (m : StatusMap) (message : Message)
      (latestProposed ts : Nat),
      tx ≠ "" →
      env.getMessagesRes = .ok message →
      env.latestProposedRes = .ok latestProposed →
      latestProposed ≥ message.blockNumber →
      message.status = 1 →
      env.checkProvenRes = .ok (true, ts) →
      env.now ≥ ts + challengePeriod →
      (statusOf (CheckWithdrawal tx env m).1 tx).sentWaitingMessage = false ∧
      (statusOf (CheckWithdrawal tx env m).1 tx).sent5MinuteReminder = false) := by
  refine ⟨?_, ?_, ?_⟩
  · intro tx envs m htx henvs
    obtain ⟨hW, hR⟩ := waiting_run_bound tx envs m htx henvs
    constructor
    · by_cases hc : (statusOf m tx).sentWaitingMessage <;> simp [hc] at hW <;> omega
    · by_cases hc : (statusOf m tx).sent5MinuteReminder <;> simp [hc] at hR <;> omega
  · intro tx env m message latestProposed htx h1 h2 h3 h4 h5
    have hs2 : ¬ message.status ≥ 2 := by omega
    have hs1 : ¬ message.status = 1 := by omega
    constructor
    · simp [CheckWithdrawal, htx, h1, h2, h3, h4, h5, hs2, hs1]
    · simp [CheckWithdrawal, htx, h1, h2, h3, h4, h5, hs2, hs1, statusOf_ensure]
  · intro tx env m message latestProposed ts htx h1 h2 h3 h4 h5 h6
    have hs2 : ¬ message.status ≥ 2 := by omega
    simp only [CheckWithdrawal, htx, h1, h2, h3, h4, h5, hs2, h6]
    cases hf : env.finalizeRes with
    | error e => simp [statusOf_set]
    | ok u =>
        simp
        split <;> simp [statusOf_set]

/-- Witness for the amended C7: three consecutive waiting ticks on an
initially clean status map emit at most one notice of each kind, applied
through the idempotence theorem. -/
theorem checkWithdrawal_notification_idempotence_witness :
    countNotice .waitingChallenge (runChecks sampleTx [c7WaitEnv, c7WaitEnv, c7WaitEnv] []).2 ≤ 1 ∧
    countNotice .fiveMinuteReminder (runChecks sampleTx [c7WaitEnv, c7WaitEnv, c7WaitEnv] []).2 ≤ 1 := by
  have h := checkWithdrawal_notification_idempotence.1 sampleTx
    [c7WaitEnv, c7WaitEnv, c7WaitEnv] [] (by decide) ?_
  · exact h
  · intro e he
    have he' : e = c7WaitEnv := by simpa using he
    subst he'
    exact ⟨{ c1Message with status := 1 }, 10, 100, rfl, rfl, by decide, rfl, rfl, by decide⟩

/-- Counterexample to C7: a successful prove tick does *not* reset the two
notification flags — they stay `true` even though the prove succeeded
(`proveSuccess` notice emitted this tick). -/
theorem checkWithdrawal_prove_no_reset_counterexample :
    SchedAction.tg Notice.proveSuccess ∈ (CheckWithdrawal sampleTx c7Env c7Map).2.1 ∧
    (statusOf (CheckWithdrawal sampleTx c7Env c7Map).1 sampleTx).sentWaitingMessage = true ∧
    (statusOf (CheckWithdrawal sampleTx c7Env c7Map).1 sampleTx).sent5MinuteReminder = true := by
  decide

/-! ## C8 — termination after the last withdrawal finalizes -/

/-- Counterexample to C8: a tick whose single withdrawal is observed
already finalized on-chain ends with every tracked withdrawal's
`finalized` flag true, yet no "all withdrawals completed" notice is sent
and the scheduler is not stopped. -/
theorem checkAllWithdrawals_observed_finalized_counterexample :
    allFinalized c8Tick.1 = true ∧
    SchedAction.tg Notice.allCompleted ∉ c8Tick.2 ∧
    SchedAction.stop ∉ c8Tick.2 ∧
    SchedAction.tg Notice.alreadyFinalized ∈ c8Tick.2 := by decide

/-- Claim C8 amended: the "all withdrawals completed" notice and the scheduler
stop are emitted only on the finalize-transaction-success path: when the
tick's finalize attempt succeeds and afterwards every tracked withdrawal is
finalized, `CheckWithdrawal` emits the completion notice and stops the
ticker (making `Start` return and the process exit 0).  A withdrawal that
reaches `finalized` by being observed already finalized on-chain does not
trigger the completion notice or the stop. -/
theorem checkWithdrawal_all_completed (tx : String) (env : CheckEnv) (m : StatusMap)
    (message : Message) (latestProposed ts : Nat)
    (htx : tx ≠ "")
    (h1 : env.getMessagesRes = .ok message)
    (h2 : env.latestProposedRes = .ok latestProposed)
    (h3 : latestProposed ≥ message.blockNumber)
    (h4 : message.status = 1)
    (h5 : env.checkProvenRes = .ok (true, ts))
    (h6 : env.now ≥ ts + challengePeriod)
    (h7 : env.finalizeRes = .ok ())
    (h8 : allFinalized (CheckWithdrawal tx env m).1 = true) :
    SchedAction.tg Notice.allCompleted ∈ (CheckWithdrawal tx env m).2.1 ∧
    SchedAction.stop ∈ (CheckWithdrawal tx env m).2.1 := by
  have hs2 : ¬ message.status ≥ 2 := by omega
  simp only [CheckWithdrawal, htx, h1, h2, h3, h4, h5, hs2, h6, h7] at h8 ⊢
  simp at h8 ⊢
  split at h8
  · rename_i hall
    simp [hall]
  · rename_i hall
    simp at h8
    exact absurd h8 hall

/-- Witness for the amended C8: a finalize success on the single tracked
withdrawal triggers the completion notice and the stop. -/
theorem checkWithdrawal_all_completed_witness :
    SchedAction.tg Notice.allCompleted ∈ (CheckWithdrawal sampleTx c8FinalizeEnv []).2.1 ∧
    SchedAction.stop ∈ (CheckWithdrawal sampleTx c8FinalizeEnv []).2.1 :=
  checkWithdrawal_all_completed sampleTx c8FinalizeEnv []
    { c1Message with status := 1 } 10 100
    (by decide) rfl rfl (by decide) rfl rfl (by decide) rfl (by decide)

end MantleBridge
